import Mathlib

/-!
Verification of the slot-extraction parser in playtomic_scraper.py.

The Python extractor parse_club_page works on a BeautifulSoup document.
We embed the parsed document as the ordered list of its text nodes, each
text node sitting inside its own enclosing element.  Under that shape:

* soup.find_all with the court regular expression returns the matching
  text nodes in document order;
* element.find_parent() is the enclosing element and always exists, so
  the "if not parent: continue" guard never fires;
* parent.find_next with the availability regular expression scans the
  text nodes starting from the court text node itself: the first element
  after the parent in document order is its first child, which is the
  court text node, and subsequent elements are the later wrapper tags
  (skipped by the string filter) and their text nodes.  Hence the search
  range is the suffix of the node list beginning at the court node.

The Python regular expressions are hand compiled below.  The character
classes \s and \d of the patterns are modelled by the ASCII whitespace
set and the ASCII digits (the inputs of interest are ASCII apart from
the bullet sign).  In the compiled pattern, every greedy quantifier is
followed by a token that cannot overlap its character class, so maximal
munch coincides with the backtracking semantics of the Python engine;
the only genuine backtracking point, the one-or-two digit hour, is
compiled as an explicit two-branch alternative.

The ambient wall clock (dt.date.today().isoformat() is evaluated once
per emitted record, inside the loop body) is modelled as a stream
clock : Nat -> String whose n-th read returns clock n.
-/

/-- Whitespace class of the Python patterns (ASCII part of \s). -/
def isPySpace (c : Char) : Bool :=
  c = ' ' || c = '\t' || c = '\n' || c = '\r' || c = '\x0b' || c = '\x0c'

/-- Digit class of the Python patterns (ASCII part of \d). -/
def pyDigit (c : Char) : Bool :=
  c.isDigit

/-- Match a literal token at the head of the input, returning the rest. -/
def litTok : List Char → List Char → Option (List Char)
  | [], l => some l
  | _ :: _, [] => none
  | p :: ps, c :: cs => if c = p then litTok ps cs else none

/-- Match one or more whitespace characters greedily, returning the rest. -/
def wsPlus : List Char → Option (List Char)
  | [] => none
  | c :: cs => if isPySpace c then some (cs.dropWhile isPySpace) else none

/-- One-digit-hour alternative of the clock-time group of the pattern. -/
def timeTokOne (l : List Char) : Option (String × List Char) :=
  match l with
  | d1 :: c :: m1 :: m2 :: rest =>
    if pyDigit d1 && c = ':' && pyDigit m1 && pyDigit m2 then
      some (String.mk [d1, ':', m1, m2], rest)
    else none
  | _ => none

/-- Clock-time group of the pattern: one or two digits, a colon, two
digits.  The two-digit hour is tried first (greedy), falling back to the
one-digit alternative, exactly as the Python engine backtracks. -/
def timeTok (l : List Char) : Option (String × List Char) :=
  match l with
  | d1 :: d2 :: c :: m1 :: m2 :: rest =>
    if pyDigit d1 && pyDigit d2 && c = ':' && pyDigit m1 && pyDigit m2 then
      some (String.mk [d1, d2, ':', m1, m2], rest)
    else timeTokOne l
  | _ => timeTokOne l

/-- Attempt to match the whole time-window pattern of
_parse_timeslot_text at the head of the input, yielding the two captured
clock times and the rest of the input after the match. -/
def matchWindow (l : List Char) : Option (String × String × List Char) := do
  let r1 ← litTok "Starting".data l
  let r2 ← wsPlus r1
  let r3 ← litTok "at".data r2
  let r4 ← wsPlus r3
  let x1 ← timeTok r4
  let r6 ← wsPlus x1.2
  let r7 ← litTok "until".data r6
  let r8 ← wsPlus r7
  let x2 ← timeTok r8
  return (x1.1, x2.1, x2.2)

/-- Left-to-right, non-overlapping scan for the time-window pattern, the
behaviour of finditer.  The fuel argument starts at the length of the
input; a successful match consumes more input than one unit of fuel, so
fuel never runs out before the input does. -/
def scanAux : Nat → List Char → List (String × String)
  | 0, _ => []
  | _ + 1, [] => []
  | fuel + 1, c :: cs =>
    match matchWindow (c :: cs) with
    | some (t1, t2, rest) => (t1, t2) :: scanAux fuel rest
    | none => scanAux fuel cs

/-- Scan of a character list for all time windows, in order. -/
def scanList (l : List Char) : List (String × String) :=
  scanAux l.length l

/-- Embedding of _parse_timeslot_text: all start/end pairs found in the
text, in left-to-right order of appearance. -/
def parse_timeslot_text (text : String) : List (String × String) :=
  scanList text.data

/-- Substring test: tok occurs contiguously in the input. -/
def hasSubstr (tok : List Char) : List Char → Bool
  | [] => tok.isEmpty
  | c :: cs => tok.isPrefixOf (c :: cs) || hasSubstr tok cs

/-- After a bullet sign, match any characters other than a newline and
then the literal Court, the tail of the court regular expression. -/
def bulletThenCourt : List Char → Bool
  | [] => false
  | c :: cs => "Court".data.isPrefixOf (c :: cs) || (!(c = '\n') && bulletThenCourt cs)

/-- Search of the court regular expression: a bullet sign, then any
characters other than a newline, then the literal Court. -/
def courtRe : List Char → Bool
  | [] => false
  | c :: cs => (c = '•' && bulletThenCourt cs) || courtRe cs

/-- Search of the availability regular expression
options?•|option•|Starting: one of its three literal alternatives occurs
in the input. -/
def availRe (l : List Char) : Bool :=
  hasSubstr "options•".data l || hasSubstr "option•".data l ||
    hasSubstr "Starting".data l

/-- Embedding of the Python str.strip(): drop leading and trailing
whitespace. -/
def pyStrip (s : String) : String :=
  String.mk (((s.data.dropWhile isPySpace).reverse.dropWhile isPySpace).reverse)

/-- Embedding of the OpenSlot dataclass, fields in source order. -/
structure OpenSlot where
  city : String
  club_name : String
  court_name : String
  start_time : String
  end_time : String
  level : Option String
  free_slots : Option Int
deriving DecidableEq

/-- Record construction of the loop body: the timestamps are the date
string of the clock read joined to the captured clock times, level
defaults to none and free_slots is passed as none. -/
def mkSlot (city club court today : String) (p : String × String) : OpenSlot :=
  { city := city, club_name := club, court_name := court,
    start_time := today ++ " " ++ p.1, end_time := today ++ " " ++ p.2,
    level := none, free_slots := none }

/-- Embedding of parent.find_next with the availability filter: the
first text node, searching from the court node (position i) onwards,
whose text the availability regular expression matches. -/
def findAvail (doc : List String) (i : Nat) : Option String :=
  (doc.drop i).find? fun t => availRe t.data

/-- Emit one record per captured pair, reading the clock once per
record; k counts the clock reads performed so far. -/
def emitSlots (clock : Nat → String) (city club court : String) :
    List (String × String) → Nat → List OpenSlot
  | [], _ => []
  | p :: ps, k => mkSlot city club court (clock k) p :: emitSlots clock city club court ps (k + 1)

/-- Main loop of parse_club_page over the indexed text nodes: for each
text node matched by the court regular expression, find the next
availability text, scan it for time windows and emit the records. -/
def parseElems (clock : Nat → String) (club city : String) (doc : List String) :
    List (Nat × String) → Nat → List OpenSlot
  | [], _ => []
  | (i, t) :: rest, k =>
    if courtRe t.data then
      match findAvail doc i with
      | none => parseElems clock club city doc rest k
      | some tb =>
        emitSlots clock city club (pyStrip t) (parse_timeslot_text tb) k ++
          parseElems clock club city doc rest (k + (parse_timeslot_text tb).length)
    else parseElems clock club city doc rest k

/-- Embedding of parse_club_page: doc is the ordered list of the text
nodes of the parsed markup, clock the ambient date source. -/
def parse_club_page (doc : List String) (club_name city : String)
    (clock : Nat → String) : List OpenSlot :=
  parseElems clock club_name city doc doc.enum 0

/-- Total number of time windows matched across all courts of a
document, one per emitted record. -/
def totalPairs (doc : List String) : Nat :=
  ((doc.enum.filter fun p => courtRe p.2.data).map fun p =>
    match findAvail doc p.1 with
    | none => 0
    | some tb => (parse_timeslot_text tb).length).sum

/-- Exact shape of a captured clock time: one or two digits, a colon,
two digits. -/
def timeShape (s : String) : Bool :=
  match s.data with
  | [d1, d2, c, m1, m2] => pyDigit d1 && pyDigit d2 && c = ':' && pyDigit m1 && pyDigit m2
  | [d1, c, m1, m2] => pyDigit d1 && c = ':' && pyDigit m1 && pyDigit m2
  | _ => false

/-- Timestamp format stated by the specification, literally
YYYY-MM-DD HH:MM with two-digit fields throughout.  This definition
follows the words of the specification and is compared against the
strings the embedded code emits. -/
def specTimestampFormat (s : String) : Bool :=
  match s.data with
  | [y1, y2, y3, y4, s1, mo1, mo2, s2, d1, d2, sp, h1, h2, c, mi1, mi2] =>
    pyDigit y1 && pyDigit y2 && pyDigit y3 && pyDigit y4 && s1 = '-' &&
    pyDigit mo1 && pyDigit mo2 && s2 = '-' && pyDigit d1 && pyDigit d2 &&
    sp = ' ' && pyDigit h1 && pyDigit h2 && c = ':' && pyDigit mi1 && pyDigit mi2
  | _ => false

lemma litTok_isPrefixOf : ∀ (ps l r : List Char), litTok ps l = some r → ps.isPrefixOf l = true := by
  intro ps
  induction ps with
  | nil => intro l r _; simp [List.isPrefixOf]
  | cons p ps ih =>
    intro l r h
    cases l with
    | nil => simp [litTok] at h
    | cons c cs =>
      simp only [litTok] at h
      by_cases hc : c = p
      · simp only [hc, if_pos rfl] at h
        simpa [List.isPrefixOf, hc] using ih cs r h
      · simp [hc] at h

lemma matchWindow_cons_ne_S (c : Char) (l : List Char) (h : ¬ c = 'S') :
    matchWindow (c :: l) = none := by
  have h1 : litTok "Starting".data (c :: l) = none := by
    show (if c = 'S' then litTok "tarting".data l else none) = none
    simp [h]
  simp [matchWindow, h1]

lemma matchWindow_starting {l : List Char} {x : String × String × List Char}
    (h : matchWindow l = some x) : "Starting".data.isPrefixOf l = true := by
  simp only [matchWindow, Option.bind_eq_bind', Option.bind_eq_some] at h
  obtain ⟨r1, h1, -⟩ := h
  exact litTok_isPrefixOf _ _ _ h1

lemma scanList_cons_none {c : Char} {l : List Char} (h : matchWindow (c :: l) = none) :
    scanList (c :: l) = scanList l := by
  simp [scanList, List.length_cons, scanAux, h]

lemma scanList_append_no_S {pre rest : List Char} (h : pre.all fun c => !(c = 'S')) :
    scanList (pre ++ rest) = scanList rest := by
  induction pre with
  | nil => simp
  | cons c cs ih =>
    rw [List.all_cons, Bool.and_eq_true] at h
    have hc : ¬ c = 'S' := by simpa using h.1
    rw [List.cons_append, scanList_cons_none (matchWindow_cons_ne_S _ _ hc), ih h.2]

lemma scan_starting : ∀ (fuel : Nat) (l : List Char), scanAux fuel l ≠ [] →
    hasSubstr "Starting".data l = true := by
  intro fuel
  induction fuel with
  | zero => intro l h; simp [scanAux] at h
  | succ fuel ih =>
    intro l h
    cases l with
    | nil => simp [scanAux] at h
    | cons c cs =>
      rcases hm : matchWindow (c :: cs) with - | ⟨t1, t2, rest⟩
      · simp only [scanAux, hm] at h
        have := ih cs h
        simp [hasSubstr, this]
      · have := matchWindow_starting hm
        simp [hasSubstr, this]

lemma scanList_nil_of_no_starting {l : List Char} (h : hasSubstr "Starting".data l = false) :
    scanList l = [] := by
  by_contra hne
  rw [scan_starting l.length l hne] at h
  exact Bool.false_ne_true h.symm

lemma availRe_of_starting {l : List Char} (h : hasSubstr "Starting".data l = true) :
    availRe l = true := by
  simp [availRe, h]

lemma scanList_nil_of_not_avail {l : List Char} (h : availRe l = false) :
    scanList l = [] := by
  apply scanList_nil_of_no_starting
  by_contra hs
  rw [availRe_of_starting (by simpa using Bool.of_not_eq_false hs)] at h
  exact Bool.false_ne_true h.symm

lemma timeTokOne_shape (l : List Char) (t : String) (r : List Char)
    (h : timeTokOne l = some (t, r)) : timeShape t = true := by
  cases l with
  | nil => simp [timeTokOne] at h
  | cons d1 l1 =>
  cases l1 with
  | nil => simp [timeTokOne] at h
  | cons c l2 =>
  cases l2 with
  | nil => simp [timeTokOne] at h
  | cons m1 l3 =>
  cases l3 with
  | nil => simp [timeTokOne] at h
  | cons m2 rest =>
  simp only [timeTokOne] at h
  by_cases hcond : (pyDigit d1 && c = ':' && pyDigit m1 && pyDigit m2) = true
  · rw [if_pos hcond] at h
    simp only [Bool.and_eq_true, decide_eq_true_eq] at hcond
    obtain ⟨⟨⟨hd1, hc⟩, hm1⟩, hm2⟩ := hcond
    simp only [Option.some.injEq, Prod.mk.injEq] at h
    obtain ⟨ht, -⟩ := h
    subst ht
    simp [timeShape, hd1, hm1, hm2]
  · rw [if_neg hcond] at h
    exact absurd h (by simp)

lemma timeTok_shape (l : List Char) (t : String) (r : List Char)
    (h : timeTok l = some (t, r)) : timeShape t = true := by
  cases l with
  | nil => exact timeTokOne_shape [] t r h
  | cons d1 l1 =>
  cases l1 with
  | nil => exact timeTokOne_shape [d1] t r h
  | cons d2 l2 =>
  cases l2 with
  | nil => exact timeTokOne_shape [d1, d2] t r h
  | cons c l3 =>
  cases l3 with
  | nil => exact timeTokOne_shape [d1, d2, c] t r h
  | cons m1 l4 =>
  cases l4 with
  | nil => exact timeTokOne_shape [d1, d2, c, m1] t r h
  | cons m2 rest =>
  simp only [timeTok] at h
  by_cases hcond : (pyDigit d1 && pyDigit d2 && c = ':' && pyDigit m1 && pyDigit m2) = true
  · rw [if_pos hcond] at h
    simp only [Bool.and_eq_true, decide_eq_true_eq] at hcond
    obtain ⟨⟨⟨⟨hd1, hd2⟩, hc⟩, hm1⟩, hm2⟩ := hcond
    simp only [Option.some.injEq, Prod.mk.injEq] at h
    obtain ⟨ht, -⟩ := h
    subst ht
    simp [timeShape, hd1, hd2, hm1, hm2]
  · rw [if_neg hcond] at h
    exact timeTokOne_shape _ _ _ h

lemma matchWindow_shape {l : List Char} {t1 t2 : String} {rest : List Char}
    (h : matchWindow l = some (t1, t2, rest)) :
    timeShape t1 = true ∧ timeShape t2 = true := by
  simp only [matchWindow, Option.bind_eq_bind', Option.bind_eq_some, Option.pure_def] at h
  obtain ⟨r1, -, h⟩ := h
  obtain ⟨r2, -, h⟩ := h
  obtain ⟨r3, -, h⟩ := h
  obtain ⟨r4, -, h⟩ := h
  obtain ⟨x1, hx1, h⟩ := h
  obtain ⟨r6, -, h⟩ := h
  obtain ⟨r7, -, h⟩ := h
  obtain ⟨r8, -, h⟩ := h
  obtain ⟨x2, hx2, h⟩ := h
  simp only [Option.some.injEq, Prod.mk.injEq] at h
  obtain ⟨h1, h2, -⟩ := h
  subst h1
  subst h2
  exact ⟨timeTok_shape _ _ _ (by rw [hx1]), timeTok_shape _ _ _ (by rw [hx2])⟩

lemma scan_shape : ∀ (fuel : Nat) (l : List Char) (p : String × String),
    p ∈ scanAux fuel l → timeShape p.1 = true ∧ timeShape p.2 = true := by
  intro fuel
  induction fuel with
  | zero => intro l p h; simp [scanAux] at h
  | succ fuel ih =>
    intro l p h
    cases l with
    | nil => simp [scanAux] at h
    | cons c cs =>
      rcases hm : matchWindow (c :: cs) with - | ⟨t1, t2, rest⟩
      · simp only [scanAux, hm] at h
        exact ih cs p h
      · simp only [scanAux, hm, List.mem_cons] at h
        rcases h with rfl | h
        · exact matchWindow_shape hm
        · exact ih rest p h

lemma parse_timeslot_shape {text : String} {p : String × String}
    (h : p ∈ parse_timeslot_text text) : timeShape p.1 = true ∧ timeShape p.2 = true :=
  scan_shape _ _ p h

lemma emitSlots_const (d city club court : String) :
    ∀ (ps : List (String × String)) (k : Nat),
      emitSlots (fun _ => d) city club court ps k = ps.map (mkSlot city club court d) := by
  intro ps
  induction ps with
  | nil => intro k; rfl
  | cons p ps ih => intro k; simp [emitSlots, ih]

lemma emitSlots_length (clock : Nat → String) (city club court : String) :
    ∀ (ps : List (String × String)) (k : Nat),
      (emitSlots clock city club court ps k).length = ps.length := by
  intro ps
  induction ps with
  | nil => intro k; rfl
  | cons p ps ih => intro k; simp [emitSlots, ih]

lemma emitSlots_mem (clock : Nat → String) (city club court : String) :
    ∀ (ps : List (String × String)) (k : Nat) (r : OpenSlot),
      r ∈ emitSlots clock city club court ps k →
      ∃ j p, p ∈ ps ∧ r = mkSlot city club court (clock j) p := by
  intro ps
  induction ps with
  | nil => intro k r h; simp [emitSlots] at h
  | cons p ps ih =>
    intro k r h
    simp only [emitSlots, List.mem_cons] at h
    rcases h with rfl | h
    · exact ⟨k, p, List.mem_cons_self p ps, rfl⟩
    · obtain ⟨j, q, hq, hr⟩ := ih (k + 1) r h
      exact ⟨j, q, List.mem_cons_of_mem _ hq, hr⟩

lemma parseElems_mem (clock : Nat → String) (club city : String) (doc : List String) :
    ∀ (l : List (Nat × String)) (k : Nat) (r : OpenSlot),
      r ∈ parseElems clock club city doc l k →
      ∃ j court s e, timeShape s = true ∧ timeShape e = true ∧
        r = mkSlot city club court (clock j) (s, e) := by
  intro l
  induction l with
  | nil => intro k r h; simp [parseElems] at h
  | cons it rest ih =>
    obtain ⟨i, t⟩ := it
    intro k r h
    simp only [parseElems] at h
    by_cases hc : courtRe t.data = true
    · rw [if_pos hc] at h
      rcases hf : findAvail doc i with - | tb
      · rw [hf] at h
        exact ih _ _ h
      · rw [hf] at h
        rw [List.mem_append] at h
        rcases h with h | h
        · obtain ⟨j, p, hp, hr⟩ := emitSlots_mem clock city club (pyStrip t) _ _ _ h
          obtain ⟨hs, he⟩ := parse_timeslot_shape hp
          exact ⟨j, pyStrip t, p.1, p.2, hs, he, by rw [hr]⟩
        · exact ih _ _ h
    · rw [if_neg hc] at h
      exact ih _ _ h

lemma parseElems_length (clock : Nat → String) (club city : String) (doc : List String) :
    ∀ (l : List (Nat × String)) (k : Nat),
      (parseElems clock club city doc l k).length =
      ((l.filter fun p => courtRe p.2.data).map fun p =>
        match findAvail doc p.1 with
        | none => 0
        | some tb => (parse_timeslot_text tb).length).sum := by
  intro l
  induction l with
  | nil => intro k; rfl
  | cons it rest ih =>
    obtain ⟨i, t⟩ := it
    intro k
    by_cases hc : courtRe t.data = true
    · rcases hf : findAvail doc i with - | tb
      · simp [parseElems, hc, hf, List.filter_cons, ih]
      · simp [parseElems, hc, hf, List.filter_cons, ih, emitSlots_length]
    · simp [parseElems, hc, List.filter_cons, ih]

lemma parseElems_skip_idx (clock : Nat → String) (club city : String) (doc : List String)
    (i : Nat) (hna : findAvail doc i = none) :
    ∀ (l : List (Nat × String)) (k : Nat),
      parseElems clock club city doc l k =
      parseElems clock club city doc (l.filter fun p => !(p.1 = i)) k := by
  intro l
  induction l with
  | nil => intro k; rfl
  | cons it rest ih =>
    obtain ⟨j, t⟩ := it
    intro k
    by_cases hj : j = i
    · subst hj
      by_cases hc : courtRe t.data = true
      · simp [parseElems, hc, hna, List.filter_cons, ih]
      · simp [parseElems, hc, List.filter_cons, ih]
    · by_cases hc : courtRe t.data = true
      · rcases hf : findAvail doc j with - | tb
        · simp [parseElems, hc, hf, List.filter_cons, hj, ih]
        · simp [parseElems, hc, hf, List.filter_cons, hj, ih]
      · simp [parseElems, hc, List.filter_cons, hj, ih]

lemma parseElems_no_start (clock : Nat → String) (club city : String) (doc : List String)
    (hdoc : ∀ t ∈ doc, hasSubstr "Starting".data t.data = false) :
    ∀ (l : List (Nat × String)) (k : Nat), parseElems clock club city doc l k = [] := by
  intro l
  induction l with
  | nil => intro k; rfl
  | cons it rest ih =>
    obtain ⟨i, t⟩ := it
    intro k
    by_cases hc : courtRe t.data = true
    · rcases hf : findAvail doc i with - | tb
      · simp [parseElems, hc, hf, ih]
      · have hf' : (doc.drop i).find? (fun u => availRe u.data) = some tb := hf
        have htb : tb ∈ doc := List.drop_subset i doc (List.mem_of_find?_eq_some hf')
        have hscan : parse_timeslot_text tb = [] :=
          scanList_nil_of_no_starting (hdoc tb htb)
        simp [parseElems, hc, hf, hscan, emitSlots, ih]
    · simp [parseElems, hc, ih]

lemma two_node_eval (clock : Nat → String) (club city : String) {label t : String}
    (hc : courtRe label.data = true) (hna : availRe label.data = false)
    (hnc : courtRe t.data = false) :
    parse_club_page [label, t] club city clock =
      emitSlots clock city club (pyStrip label) (parse_timeslot_text t) 0 := by
  by_cases ht : availRe t.data = true
  · have hfa : findAvail [label, t] 0 = some t := by
      simp [findAvail, List.find?, hna, ht]
    simp [parse_club_page, List.enum, List.enumFrom, parseElems, hc, hnc, hfa]
  · have ht' : availRe t.data = false := by simpa using ht
    have hfa : findAvail [label, t] 0 = none := by
      simp [findAvail, List.find?, hna, ht']
    have hscan : parse_timeslot_text t = [] := scanList_nil_of_not_avail ht'
    simp [parse_club_page, List.enum, List.enumFrom, parseElems, hc, hnc, hfa, hscan, emitSlots]

/-- C1: for markup in which a court label is immediately followed by an
availability text containing exactly one time-window phrase,
parse_club_page returns exactly one record, whose court name is the
trimmed label and whose timestamps join the current date to the two
matched clock times, with level and free_slots unset. -/
theorem parse_club_page_single_window (label t club city d s e : String)
    (hc : courtRe label.data = true) (hna : availRe label.data = false)
    (hnc : courtRe t.data = false) (hone : parse_timeslot_text t = [(s, e)]) :
    parse_club_page [label, t] club city (fun _ => d) =
      [{ city := city, club_name := club, court_name := pyStrip label,
         start_time := d ++ " " ++ s, end_time := d ++ " " ++ e,
         level := none, free_slots := none }] := by
  rw [two_node_eval (fun _ => d) club city hc hna hnc, hone, emitSlots_const]
  rfl

/-- Witness for C1 at the concrete scenario of the specification. -/
theorem parse_club_page_single_window_witness :
    parse_club_page ["1 • Center Court", "2 options • Starting at 14:30 until 18:00"]
      "Club A" "Hamburg" (fun _ => "2026-10-12") =
      [{ city := "Hamburg", club_name := "Club A", court_name := "1 • Center Court",
         start_time := "2026-10-12 14:30", end_time := "2026-10-12 18:00",
         level := none, free_slots := none }] := by
  have h := parse_club_page_single_window "1 • Center Court"
    "2 options • Starting at 14:30 until 18:00" "Club A" "Hamburg" "2026-10-12"
    "14:30" "18:00" (by decide) (by decide) (by decide) (by decide)
  exact h.trans (by decide)

/-- C2: parse_club_page is a total function of its inputs: on every
document, however malformed, it returns a record list whose length is
the number of time windows actually matched, so a shape mismatch only
reduces the number of records and never raises. -/
theorem parse_club_page_total (doc : List String) (club city : String) (clock : Nat → String) :
    ∃ slots : List OpenSlot, parse_club_page doc club city clock = slots ∧
      slots.length = totalPairs doc :=
  ⟨parse_club_page doc club city clock, rfl,
    parseElems_length clock club city doc doc.enum 0⟩

/-- C3: when the availability text found for a court contains N
well-formed time-window phrases, parse_club_page emits exactly N records
for that court, one per match in left-to-right order of appearance. -/
theorem parse_club_page_all_windows_in_order (label t club city d : String)
    (hc : courtRe label.data = true) (hna : availRe label.data = false)
    (hnc : courtRe t.data = false) :
    parse_club_page [label, t] club city (fun _ => d) =
      (parse_timeslot_text t).map (mkSlot city club (pyStrip label) d) := by
  rw [two_node_eval (fun _ => d) club city hc hna hnc, emitSlots_const]

/-- Witness for C3 with two time windows in one availability text. -/
theorem parse_club_page_all_windows_in_order_witness :
    parse_club_page
      ["1 • Center Court", "2 options • Starting at 8:00 until 9:30 Starting at 14:30 until 18:00"]
      "Club A" "Hamburg" (fun _ => "2026-10-12") =
      [{ city := "Hamburg", club_name := "Club A", court_name := "1 • Center Court",
         start_time := "2026-10-12 8:00", end_time := "2026-10-12 9:30",
         level := none, free_slots := none },
       { city := "Hamburg", club_name := "Club A", court_name := "1 • Center Court",
         start_time := "2026-10-12 14:30", end_time := "2026-10-12 18:00",
         level := none, free_slots := none }] := by
  have h := parse_club_page_all_windows_in_order "1 • Center Court"
    "2 options • Starting at 8:00 until 9:30 Starting at 14:30 until 18:00"
    "Club A" "Hamburg" "2026-10-12" (by decide) (by decide) (by decide)
  exact h.trans (by decide)

/-- C4 counterexample: with a one-digit hour the emitted timestamp joins
the date to the matched clock text but is not in the literal
YYYY-MM-DD HH:MM format the claim states. -/
theorem start_time_format_counterexample :
    parse_club_page ["1 • Court", "Starting at 9:30 until 10:00"] "Club A" "Hamburg"
        (fun _ => "2026-10-12") =
      [{ city := "Hamburg", club_name := "Club A", court_name := "1 • Court",
         start_time := "2026-10-12 9:30", end_time := "2026-10-12 10:00",
         level := none, free_slots := none }] ∧
    specTimestampFormat "2026-10-12 9:30" = false :=
  ⟨by decide, by decide⟩

/-- C4 amended: every emitted record copies club_name and city verbatim
from the call and has start_time and end_time equal to the date read for
the record joined by a single space to the respective matched clock
time, whose hour has one or two digits. -/
theorem parse_club_page_time_fields (doc : List String) (club city d : String) (r : OpenSlot)
    (h : r ∈ parse_club_page doc club city fun _ => d) :
    r.city = city ∧ r.club_name = club ∧
      ∃ s e, timeShape s = true ∧ timeShape e = true ∧
        r.start_time = d ++ " " ++ s ∧ r.end_time = d ++ " " ++ e := by
  obtain ⟨j, court, s, e, hs, he, hr⟩ := parseElems_mem _ club city doc _ _ r h
  subst hr
  exact ⟨rfl, rfl, s, e, hs, he, rfl, rfl⟩

/-- Witness for the amended C4 at a concrete record. -/
theorem parse_club_page_time_fields_witness :
    (⟨"Hamburg", "Club A", "1 • Court", "2026-10-12 14:30", "2026-10-12 18:00",
      none, none⟩ : OpenSlot).city = "Hamburg" ∧
    (⟨"Hamburg", "Club A", "1 • Court", "2026-10-12 14:30", "2026-10-12 18:00",
      none, none⟩ : OpenSlot).club_name = "Club A" ∧
    ∃ s e, timeShape s = true ∧ timeShape e = true ∧
      (⟨"Hamburg", "Club A", "1 • Court", "2026-10-12 14:30", "2026-10-12 18:00",
        none, none⟩ : OpenSlot).start_time = "2026-10-12" ++ " " ++ s ∧
      (⟨"Hamburg", "Club A", "1 • Court", "2026-10-12 14:30", "2026-10-12 18:00",
        none, none⟩ : OpenSlot).end_time = "2026-10-12" ++ " " ++ e :=
  parse_club_page_time_fields ["1 • Court", "Starting at 14:30 until 18:00"]
    "Club A" "Hamburg" "2026-10-12"
    ⟨"Hamburg", "Club A", "1 • Court", "2026-10-12 14:30", "2026-10-12 18:00", none, none⟩
    (by decide)

/-- C5: two runs on the same markup, club name and city, during which
every ambient date read returns the same value, produce identical output
sequences. -/
theorem parse_club_page_deterministic_same_date (doc : List String) (club city d : String)
    (c1 c2 : Nat → String) (h1 : ∀ n, c1 n = d) (h2 : ∀ n, c2 n = d) :
    parse_club_page doc club city c1 = parse_club_page doc club city c2 := by
  have hc : c1 = c2 := funext fun n => (h1 n).trans (h2 n).symm
  rw [hc]

/-- Witness for C5 with two constant clocks on the same date. -/
theorem parse_club_page_deterministic_same_date_witness :
    parse_club_page ["1 • Center Court", "2 options • Starting at 14:30 until 18:00"]
      "Club A" "Hamburg" (fun _ => "2026-10-12") =
    parse_club_page ["1 • Center Court", "2 options • Starting at 14:30 until 18:00"]
      "Club A" "Hamburg" (fun _ => "2026-10-12") :=
  parse_club_page_deterministic_same_date
    ["1 • Center Court", "2 options • Starting at 14:30 until 18:00"]
    "Club A" "Hamburg" "2026-10-12" (fun _ => "2026-10-12") (fun _ => "2026-10-12")
    (fun _ => rfl) (fun _ => rfl)

/-- C6: a malformed time token (Starting at 9 until 18:00, with a bare
hour) yields no pair and leaves the scan of the rest of the text
untouched, and every captured pair has the exact clock-time shape, so no
partial record is ever emitted. -/
theorem parse_timeslot_text_skips_malformed :
    (∀ rest : String, parse_timeslot_text ("Starting at 9 until 18:00 " ++ rest) =
      parse_timeslot_text rest) ∧
    (∀ (t : String) (p : String × String), p ∈ parse_timeslot_text t →
      timeShape p.1 = true ∧ timeShape p.2 = true) := by
  constructor
  · intro rest
    show scanList ("Starting at 9 until 18:00 " ++ rest).data = scanList rest.data
    rw [String.data_append]
    have hpre : ("Starting at 9 until 18:00 ").data =
        'S' :: "tarting at 9 until 18:00 ".data := rfl
    have hm : matchWindow ('S' :: ("tarting at 9 until 18:00 ".data ++ rest.data)) = none := rfl
    rw [hpre, List.cons_append, scanList_cons_none hm,
      scanList_append_no_S
        (by decide : ("tarting at 9 until 18:00 ".data).all (fun c => !(c = 'S')) = true)]
  · intro t p h
    exact parse_timeslot_shape h

/-- Witness for C6: the malformed window is skipped while the
well-formed one later in the same text is still captured. -/
theorem parse_timeslot_text_skips_malformed_witness :
    parse_timeslot_text ("Starting at 9 until 18:00 " ++ "Starting at 14:30 until 18:00") =
      parse_timeslot_text "Starting at 14:30 until 18:00" ∧
    (timeShape "14:30" = true ∧ timeShape "18:00" = true) :=
  ⟨parse_timeslot_text_skips_malformed.1 "Starting at 14:30 until 18:00",
   parse_timeslot_text_skips_malformed.2 "Starting at 14:30 until 18:00" ("14:30", "18:00")
     (by decide)⟩

/-- C7: a court label with no availability text from its position to the
end of the document contributes zero records, is dropped without error,
and extraction proceeds exactly as over the court candidates without
that entry. -/
theorem parse_club_page_court_without_avail (doc : List String) (club city : String)
    (clock : Nat → String) (i : Nat) (t : String) (k : Nat)
    (hna : findAvail doc i = none) :
    parseElems clock club city doc [(i, t)] k = [] ∧
    parse_club_page doc club city clock =
      parseElems clock club city doc (doc.enum.filter fun p => !(p.1 = i)) 0 := by
  constructor
  · by_cases hc : courtRe t.data = true
    · simp [parseElems, hc, hna]
    · simp [parseElems, hc]
  · exact parseElems_skip_idx clock club city doc i hna doc.enum 0

/-- Witness for C7 on a one-node document whose court label is never
followed by an availability phrase. -/
theorem parse_club_page_court_without_avail_witness :
    parseElems (fun _ => "2026-10-12") "Club A" "Hamburg" ["1 • Court A"]
      [(0, "1 • Court A")] 0 = [] ∧
    parse_club_page ["1 • Court A"] "Club A" "Hamburg" (fun _ => "2026-10-12") =
      parseElems (fun _ => "2026-10-12") "Club A" "Hamburg" ["1 • Court A"]
        (["1 • Court A"].enum.filter fun p => !(p.1 = 0)) 0 :=
  parse_club_page_court_without_avail ["1 • Court A"] "Club A" "Hamburg"
    (fun _ => "2026-10-12") 0 "1 • Court A" 0 (by decide)

/-- C8 counterexample: a document with no occurrence of the literal
phrase Starting at (the two tokens are separated by two spaces) still
yields a record, because the compiled pattern allows arbitrary
whitespace between the tokens. -/
theorem no_starting_at_counterexample :
    (["1 • Court", "Starting  at 9:30 until 10:00"].all fun t =>
      !(hasSubstr "Starting at".data t.data)) = true ∧
    parse_club_page ["1 • Court", "Starting  at 9:30 until 10:00"] "Club A" "Hamburg"
        (fun _ => "2026-10-12") =
      [{ city := "Hamburg", club_name := "Club A", court_name := "1 • Court",
         start_time := "2026-10-12 9:30", end_time := "2026-10-12 10:00",
         level := none, free_slots := none }] :=
  ⟨by decide, by decide⟩

/-- C8 amended: markup none of whose text nodes contains the literal
token Starting yields the empty sequence, however many court labels are
present. -/
theorem parse_club_page_no_starting_token_empty (doc : List String) (club city : String)
    (clock : Nat → String)
    (hdoc : ∀ t ∈ doc, hasSubstr "Starting".data t.data = false) :
    parse_club_page doc club city clock = [] :=
  parseElems_no_start clock club city doc hdoc doc.enum 0

/-- Witness for the amended C8 on a document with court labels but no
Starting token. -/
theorem parse_club_page_no_starting_token_empty_witness :
    parse_club_page ["1 • Court", "2 options available"] "Club A" "Hamburg"
      (fun _ => "2026-10-12") = [] :=
  parse_club_page_no_starting_token_empty ["1 • Court", "2 options available"]
    "Club A" "Hamburg" (fun _ => "2026-10-12") (by decide)

/-- C9: in every record parse_club_page emits, level and free_slots are
unset. -/
theorem parse_club_page_level_free_slots_unset (doc : List String) (club city : String)
    (clock : Nat → String) (r : OpenSlot) (h : r ∈ parse_club_page doc club city clock) :
    r.level = none ∧ r.free_slots = none := by
  obtain ⟨j, court, s, e, -, -, hr⟩ := parseElems_mem clock club city doc _ _ r h
  subst hr
  exact ⟨rfl, rfl⟩

/-- Witness for C9 at a concrete emitted record. -/
theorem parse_club_page_level_free_slots_unset_witness :
    (⟨"Hamburg", "Club A", "1 • Center Court", "2026-10-12 14:30", "2026-10-12 18:00",
      none, none⟩ : OpenSlot).level = none ∧
    (⟨"Hamburg", "Club A", "1 • Center Court", "2026-10-12 14:30", "2026-10-12 18:00",
      none, none⟩ : OpenSlot).free_slots = none :=
  parse_club_page_level_free_slots_unset
    ["1 • Center Court", "2 options • Starting at 14:30 until 18:00"] "Club A" "Hamburg"
    (fun _ => "2026-10-12")
    ⟨"Hamburg", "Club A", "1 • Center Court", "2026-10-12 14:30", "2026-10-12 18:00",
      none, none⟩
    (by decide)

/-- C10: each record derives both of its timestamps from the single
ambient date read performed at its creation, so the date prefix of
start_time always equals the date prefix of end_time, even when the
ambient date changes between two records of one extraction. -/
theorem parse_club_page_record_single_date (doc : List String) (club city : String)
    (clock : Nat → String) (r : OpenSlot) (h : r ∈ parse_club_page doc club city clock) :
    ∃ j s e, r.start_time = clock j ++ " " ++ s ∧ r.end_time = clock j ++ " " ++ e := by
  obtain ⟨j, court, s, e, -, -, hr⟩ := parseElems_mem clock club city doc _ _ r h
  subst hr
  exact ⟨j, s, e, rfl, rfl⟩

/-- Witness for C10 with a clock whose date changes between the two
emitted records: each record still uses one date for both fields. -/
theorem parse_club_page_record_single_date_witness :
    ∃ j s e,
      (⟨"Hamburg", "Club A", "1 • Center Court", "2026-10-13 14:30", "2026-10-13 18:00",
        none, none⟩ : OpenSlot).start_time =
        (fun n => if n = 0 then "2026-10-12" else "2026-10-13") j ++ " " ++ s ∧
      (⟨"Hamburg", "Club A", "1 • Center Court", "2026-10-13 14:30", "2026-10-13 18:00",
        none, none⟩ : OpenSlot).end_time =
        (fun n => if n = 0 then "2026-10-12" else "2026-10-13") j ++ " " ++ e :=
  parse_club_page_record_single_date
    ["1 • Center Court", "2 options • Starting at 8:00 until 9:30 Starting at 14:30 until 18:00"]
    "Club A" "Hamburg" (fun n => if n = 0 then "2026-10-12" else "2026-10-13")
    ⟨"Hamburg", "Club A", "1 • Center Court", "2026-10-13 14:30", "2026-10-13 18:00",
      none, none⟩
    (by decide)
